import Mathlib

set_option maxHeartbeats 1000000

/-!
Shallow embedding of the asynchronous request / poll / collect workflow of
the text-summarization notebook.  The poller `get_output` is embedded as a
fuel-indexed loop over a sequence of read outcomes; the two batch cells are
embedded as a submission loop followed by a collection loop, both carrying
an explicit trace of the operations they perform.
-/

/-- Outcome of one attempt by the poller to read the output object, as the
notebook observes it: success with the object's content, a `ClientError`
carrying an error code (the notebook inspects the code `NoSuchKey`), or any
other failure raised by the read. -/
inductive ReadOutcome where
  | ok (content : String)
  | clientError (code : String)
  | otherError (msg : String)
deriving DecidableEq

/-- Result of running the poll loop with a given amount of fuel: the
content returned, a re-raised `ClientError`, a re-raised other failure, or
fuel exhaustion (the loop is still running after that many attempts). -/
inductive GetOutputRes where
  | returns (content : String)
  | raisesClientError (code : String)
  | raisesOther (msg : String)
  | outOfFuel
deriving DecidableEq

/-- Observable storage and timing actions of the workflow.  Writes are in
the action vocabulary so that read-only behaviour of the poller is a
provable statement about its trace rather than a typing accident. -/
inductive StoreAction where
  | read (bucket key : String)
  | sleepA (seconds : Nat)
  | write (bucket key content : String)
deriving DecidableEq

/-- Scheme-stripping step of `urllib.parse.urlparse`, restricted to the
components the notebook uses: scan for the first `:` immediately followed
by `//` and return what follows it. -/
def dropScheme : List Char → Option (List Char)
  | [] => none
  | c :: cs =>
    if c = ':' ∧ cs.take 2 = ['/', '/'] then some (cs.drop 2) else dropScheme cs

/-- Split the part after the scheme into the network location (characters
up to the first slash) and the path (from that slash on), as
`urllib.parse.urlparse` yields `netloc` and `path` for `s3://bucket/key`
locations. -/
def splitNetloc : List Char → List Char × List Char
  | [] => ([], [])
  | c :: cs =>
    if c = '/' then ([], c :: cs)
    else (c :: (splitNetloc cs).1, (splitNetloc cs).2)

/-- Model of `urllib.parse.urlparse` restricted to the `(netloc, path)` pair, on
character lists. -/
def urlparse_np (url : String) : List Char × List Char :=
  match dropScheme url.data with
  | some rest => splitNetloc rest
  | none => ([], url.data)

/-- The `output_url.netloc` component used in `get_output`. -/
def s3_bucket_of (loc : String) : String :=
  String.mk (urlparse_np loc).1

/-- The `output_url.path[1:]` component used in `get_output`: the path with its first
character removed. -/
def s3_key_of (loc : String) : String :=
  String.mk ((urlparse_np loc).2.drop 1)

/-- Object storage: a bucket and key resolve to the content of the object
there, when it exists. -/
abbrev Storage := String → String → Option String

/-- Model of `sagemaker.session.Session.read_s3_file`: return the object's
content, or raise a `ClientError` with code `NoSuchKey` when the object is
absent. -/
def read_s3_file (st : Storage) (bucket : String) ( key_prefix : String) : ReadOutcome :=
  match st bucket key_prefix with
  | some c => ReadOutcome.ok c
  | none => ReadOutcome.clientError "NoSuchKey"

/-- Fuel-indexed unfolding of the `while True` loop in `get_output`:
attempt the read; on success return the content; on a `ClientError` whose
code is `NoSuchKey` sleep 2 and retry on the next read outcome; on any
other failure re-raise it.  `env n` is the outcome of the n-th read
attempt; the returned list is the trace of actions taken. -/
def get_output_go (bucket key : String) (env : Nat → ReadOutcome) :
    Nat → GetOutputRes × List StoreAction
  | 0 => (GetOutputRes.outOfFuel, [])
  | fuel + 1 =>
    match env 0 with
    | ReadOutcome.ok c => (GetOutputRes.returns c, [StoreAction.read bucket key])
    | ReadOutcome.clientError code =>
      if code = "NoSuchKey" then
        let r := get_output_go bucket key (fun n => env (n + 1)) fuel
        (r.1, StoreAction.read bucket key :: StoreAction.sleepA 2 :: r.2)
      else
        (GetOutputRes.raisesClientError code, [StoreAction.read bucket key])
    | ReadOutcome.otherError msg =>
      (GetOutputRes.raisesOther msg, [StoreAction.read bucket key])

/-- Function `get_output` from the notebook: parse `output_location`, take the
bucket from `netloc` and the key from `path[1:]`, then loop reading that
object, sleeping 2 between attempts while it does not yet exist.  `sts n`
is the storage state seen by the n-th read attempt; `fuel` bounds the
otherwise unbounded loop. -/
def get_output (sts : Nat → Storage) (output_location : String) (fuel : Nat) :
    GetOutputRes × List StoreAction :=
  get_output_go (s3_bucket_of output_location) (s3_key_of output_location)
    (fun n => read_s3_file (sts n) (s3_bucket_of output_location) (s3_key_of output_location))
    fuel

/-- The trace of a poll run that makes `n` failed not-found attempts and
then a final attempt: a read, then a sleep of 2 before each retry. -/
def pollTrace (bucket key : String) : Nat → List StoreAction
  | 0 => [StoreAction.read bucket key]
  | n + 1 => StoreAction.read bucket key :: StoreAction.sleepA 2 :: pollTrace bucket key n

/-- How the loop finishes on the first read outcome that is not the
not-found condition. -/
def finish : ReadOutcome → GetOutputRes
  | ReadOutcome.ok c => GetOutputRes.returns c
  | ReadOutcome.clientError code => GetOutputRes.raisesClientError code
  | ReadOutcome.otherError msg => GetOutputRes.raisesOther msg

/-- Number of sleeps in a trace. -/
def countSleeps (tr : List StoreAction) : Nat :=
  tr.countP fun a => match a with | StoreAction.sleepA _ => true | _ => false

/-- Python `range(a, b)`: the integers `a, a+1, ..., b-1`. -/
def pyrange (a b : Nat) : List Nat :=
  (List.range (b - a)).map (· + a)

/-- Operations the batch cells perform against the external service: an
`invoke_endpoint_async` call (numbered by its position in the run) and a
`get_output` poll of an output location. -/
inductive BatchOp where
  | submitted (callNo : Nat)
  | polled (loc : String)
deriving DecidableEq

/-- The submission loop of the batch cells: for each index of the Python
range, call `invoke_endpoint_async` (modelled by `svc`, giving the response
of the n-th call of the run, or the exception it raises), read the
`OutputLocation` from the response and append
`(input_s3_location, output_location)` to `inferences`.  An exception
aborts the loop.  `callNo`, `infs` and `ops` accumulate the call counter,
the `inferences` list and the operation trace. -/
def submission_loop {ε : Type} (svc : Nat → Except ε String) (input_loc : String) :
    List Nat → Nat → List (String × String) → List BatchOp →
    Except ε (List (String × String)) × List BatchOp
  | [], _, infs, ops => (Except.ok infs, ops)
  | _i :: rest, callNo, infs, ops =>
    match svc callNo with
    | Except.error e => (Except.error e, ops ++ [BatchOp.submitted callNo])
    | Except.ok outLoc =>
      submission_loop svc input_loc rest (callNo + 1)
        (infs ++ [(input_loc, outLoc)]) (ops ++ [BatchOp.submitted callNo])

/-- The collection loop of the batch cells: for each
`(input_file, output_location)` pair of `inferences`, in order, call
`get_output` (modelled by `poll`, the poller's result or the exception it
raises at a given output location), bind the content to the single variable
`output` — overwriting its previous value — and print the input file and
output location.  An exception aborts the loop.  The loop's final state is
the last value of `output` together with the printed pairs. -/
def collection_loop {ε : Type} (poll : String → Except ε String) :
    List (String × String) → Option String → List (String × String) → List BatchOp →
    Except ε (Option String × List (String × String)) × List BatchOp
  | [], out, prints, ops => (Except.ok (out, prints), ops)
  | (inp, loc) :: rest, _out, prints, ops =>
    match poll loc with
    | Except.error e => (Except.error e, ops ++ [BatchOp.polled loc])
    | Except.ok content =>
      collection_loop poll rest (some content)
        (prints ++ [(inp, loc)]) (ops ++ [BatchOp.polled loc])

/-- A whole batch cell: the submission loop over the Python range indices,
then — only if every submission succeeded — the collection loop over the
recorded `inferences`.  Returns the batch outcome (the recorded pairs, the
final `output` value and the printed pairs, or the aborting exception)
together with the trace of operations performed. -/
def batch_run {ε : Type} (svc : Nat → Except ε String) (poll : String → Except ε String)
    (input_loc : String) (idxs : List Nat) :
    Except ε (List (String × String) × Option String × List (String × String)) × List BatchOp :=
  match submission_loop svc input_loc idxs 0 [] [] with
  | (Except.error e, ops) => (Except.error e, ops)
  | (Except.ok infs, ops) =>
    match collection_loop poll infs none [] ops with
    | (Except.error e, ops2) => (Except.error e, ops2)
    | (Except.ok (out, prints), ops2) => (Except.ok (infs, out, prints), ops2)

/-- Number of submission calls in a batch trace. -/
def numSubmissions (ops : List BatchOp) : Nat :=
  ops.countP fun op => match op with | BatchOp.submitted _ => true | _ => false

/-- Number of poll calls in a batch trace. -/
def numPolls (ops : List BatchOp) : Nat :=
  ops.countP fun op => match op with | BatchOp.polled _ => true | _ => false

/-- Python-dict insertion with string keys: overwrite the value when the
key is present, append the binding otherwise. -/
def dict_insert (m : List (String × String)) (k v : String) : List (String × String) :=
  if m.any (fun p => p.1 = k) then m.map (fun p => if p.1 = k then (k, v) else p)
  else m ++ [(k, v)]

/-- A result mapping keyed by the first component, built from a record of
`(input_reference, output)` pairs with dict overwrite semantics. -/
def buildMap (record : List (String × String)) : List (String × String) :=
  record.foldl (fun m e => dict_insert m e.1 e.2) []

/-- Modelled from the spec: the collection phase as the specification words
it — for each pair in order, poll the output and record the content in a
result mapping keyed by the pair's original input_reference. -/
def spec_collection {ε : Type} (poll : String → Except ε String) :
    List (String × String) → Except ε (List (String × String))
  | [] => Except.ok []
  | (inp, loc) :: rest =>
    match poll loc with
    | Except.error e => Except.error e
    | Except.ok content =>
      match spec_collection poll rest with
      | Except.error e => Except.error e
      | Except.ok m => Except.ok ((inp, content) :: m)

/-- The notebook's `input_s3_location`:
`f"s3://{s3_bucket}/{bucket_prefix}/input/input.json"`. -/
def input_s3_location (s3_bucket : String) ( bucket_prefix : String) : String :=
  "s3://" ++ s3_bucket ++ "/" ++ bucket_prefix ++ "/input/input.json"

/-- The `S3OutputPath` of the endpoint configuration:
`f"s3://{s3_bucket}/{bucket_prefix}/output"`. -/
def s3_output_path (s3_bucket : String) ( bucket_prefix : String) : String :=
  "s3://" ++ s3_bucket ++ "/" ++ bucket_prefix ++ "/output"

/-- Modelled from the spec: the Asynchronous Inference service is external
to the repository; per the specification it places each result under the
configured `S3OutputPath` as `output/<token>.out`, with the token chosen by
the service.  The `OutputLocation` returned by a submission is therefore
the configured output path, a slash, the token and `.out`. -/
def submit_output_reference (s3_bucket : String) ( bucket_prefix : String) (token : String) : String :=
  s3_output_path s3_bucket bucket_prefix ++ "/" ++ token ++ ".out"

/-! ### Helper lemmas about the poll loop -/

/-- Characterization of a terminating poll run: when the first `n` read
attempts fail with the not-found condition and the `n`-th outcome is
anything else, the loop runs exactly `n + 1` attempts, finishing on the
`n`-th outcome, with a sleep of 2 before each retry. -/
theorem get_output_go_terminates (bucket key : String) :
    ∀ (n : Nat) (env : Nat → ReadOutcome),
      (∀ j, j < n → env j = ReadOutcome.clientError "NoSuchKey") →
      env n ≠ ReadOutcome.clientError "NoSuchKey" →
      ∀ fuel, n < fuel →
        get_output_go bucket key env fuel = (finish (env n), pollTrace bucket key n) := by
  intro n
  induction n with
  | zero =>
    intro env _ hlast fuel hfuel
    match fuel, hfuel with
    | fuel + 1, _ =>
      cases henv : env 0 with
      | ok c => simp [get_output_go, henv, finish, pollTrace]
      | clientError code =>
        have hne : ¬ code = "NoSuchKey" := by
          intro hc; exact hlast (by rw [henv, hc])
        simp [get_output_go, henv, hne, finish, pollTrace]
      | otherError msg => simp [get_output_go, henv, finish, pollTrace]
  | succ n ih =>
    intro env hpre hlast fuel hfuel
    match fuel, hfuel with
    | fuel + 1, hfuel =>
      have h0 : env 0 = ReadOutcome.clientError "NoSuchKey" :=
        hpre 0 (Nat.succ_pos n)
      have hrec := ih (fun m => env (m + 1))
        (fun j hj => hpre (j + 1) (Nat.succ_lt_succ hj)) hlast fuel
        (Nat.lt_of_succ_lt_succ hfuel)
      simp [get_output_go, h0, hrec, pollTrace]

/-- If every read attempt fails with the not-found condition, the loop
never finishes: for every amount of fuel it is still running. -/
theorem get_output_go_all_nosuchkey (bucket key : String) :
    ∀ (fuel : Nat) (env : Nat → ReadOutcome),
      (∀ j, env j = ReadOutcome.clientError "NoSuchKey") →
      (get_output_go bucket key env fuel).1 = GetOutputRes.outOfFuel := by
  intro fuel
  induction fuel with
  | zero => intro env _; simp [get_output_go]
  | succ fuel ih =>
    intro env h
    have hrec := ih (fun m => env (m + 1)) (fun j => h (j + 1))
    simp [get_output_go, h 0, hrec]

/-- Every action in a poll trace is a read of the polled object or a sleep
of 2. -/
theorem get_output_go_actions (bucket key : String) :
    ∀ (fuel : Nat) (env : Nat → ReadOutcome) (a : StoreAction),
      a ∈ (get_output_go bucket key env fuel).2 →
      a = StoreAction.read bucket key ∨ a = StoreAction.sleepA 2 := by
  intro fuel
  induction fuel with
  | zero => intro env a ha; simp [get_output_go] at ha
  | succ fuel ih =>
    intro env a ha
    cases henv : env 0 with
    | ok c =>
      simp [get_output_go, henv] at ha
      exact Or.inl ha
    | clientError code =>
      by_cases hc : code = "NoSuchKey"
      · subst hc
        simp [get_output_go, henv] at ha
        rcases ha with h | h | h
        · exact Or.inl h
        · exact Or.inr h
        · exact ih _ a h
      · simp [get_output_go, henv, hc] at ha
        exact Or.inl ha
    | otherError msg =>
      simp [get_output_go, henv] at ha
      exact Or.inl ha

/-- Every sleep in the canonical poll trace lasts 2 time units. -/
theorem pollTrace_sleeps (bucket key : String) :
    ∀ n d, StoreAction.sleepA d ∈ pollTrace bucket key n → d = 2 := by
  intro n
  induction n with
  | zero => intro d hd; simp [pollTrace] at hd
  | succ n ih =>
    intro d hd
    simp [pollTrace] at hd
    rcases hd with h | h
    · exact h
    · exact ih d h

/-- A poll run with `n` retries sleeps exactly `n` times. -/
theorem pollTrace_countSleeps (bucket key : String) :
    ∀ n, countSleeps (pollTrace bucket key n) = n := by
  intro n
  induction n with
  | zero => simp [pollTrace, countSleeps]
  | succ n ih => simp [pollTrace, countSleeps] at ih ⊢; omega

/-! ### Helper lemmas about the batch loops -/

/-- Peel the first index off a `List.range` under a `map`. -/
theorem range_map_succ_shift {α : Type} (g : Nat → α) (n : Nat) :
    (List.range (n + 1)).map g = g 0 :: (List.range n).map (fun j => g (j + 1)) := by
  rw [List.range_succ_eq_map]
  simp [List.map_map, Function.comp]

/-- A submission loop in which every call succeeds appends one pair per
call, in call order, and records one submission per call in its trace. -/
theorem submission_loop_ok {ε : Type} (f : Nat → String) (input_loc : String) :
    ∀ (idxs : List Nat) (c0 : Nat) (infs : List (String × String)) (ops : List BatchOp),
      submission_loop (ε := ε) (fun i => Except.ok (f i)) input_loc idxs c0 infs ops =
        (Except.ok (infs ++ (List.range idxs.length).map (fun j => (input_loc, f (c0 + j)))),
         ops ++ (List.range idxs.length).map (fun j => BatchOp.submitted (c0 + j))) := by
  intro idxs
  induction idxs with
  | nil => intro c0 infs ops; simp [submission_loop]
  | cons i rest ih =>
    intro c0 infs ops
    have harg : (fun j => (input_loc, f (c0 + 1 + j))) = (fun j => (input_loc, f (c0 + (j + 1)))) := by
      funext j; congr 2; omega
    have harg2 : (fun j => BatchOp.submitted (c0 + 1 + j)) =
        (fun j => BatchOp.submitted (c0 + (j + 1))) := by
      funext j; congr 1; omega
    simp only [submission_loop]
    rw [ih, harg, harg2, List.length_cons,
      range_map_succ_shift (fun j => (input_loc, f (c0 + j))),
      range_map_succ_shift (fun j => BatchOp.submitted (c0 + j))]
    simp

/-- A collection loop in which every poll succeeds leaves the last polled
content in `output`, prints each pair in order, and records one poll per
pair, in pair order, in its trace. -/
theorem collection_loop_ok {ε : Type} (g : String → String) :
    ∀ (entries : List (String × String)) (out : Option String)
      (prints : List (String × String)) (ops : List BatchOp),
      collection_loop (ε := ε) (fun loc => Except.ok (g loc)) entries out prints ops =
        (Except.ok (entries.foldl (fun _ e => some (g e.2)) out, prints ++ entries),
         ops ++ entries.map (fun e => BatchOp.polled e.2)) := by
  intro entries
  induction entries with
  | nil => intro out prints ops; simp [collection_loop]
  | cons e rest ih =>
    intro out prints ops
    obtain ⟨inp, loc⟩ := e
    simp only [collection_loop]
    rw [ih]
    simp

/-- A submission loop whose `j`-th call raises, every earlier call having
succeeded, aborts with that exception after exactly `j + 1` submissions and
performs nothing else. -/
theorem submission_loop_err {ε : Type} (svc : Nat → Except ε String) (input_loc : String) :
    ∀ (idxs : List Nat) (j : Nat) (e : ε) (c0 : Nat) (infs : List (String × String))
      (ops : List BatchOp),
      j < idxs.length →
      svc (c0 + j) = Except.error e →
      (∀ i, i < j → ∃ o, svc (c0 + i) = Except.ok o) →
      submission_loop svc input_loc idxs c0 infs ops =
        (Except.error e, ops ++ (List.range (j + 1)).map (fun i => BatchOp.submitted (c0 + i))) := by
  intro idxs
  induction idxs with
  | nil => intro j e c0 infs ops hj; simp at hj
  | cons i rest ih =>
    intro j e c0 infs ops hj herr hok
    cases j with
    | zero =>
      simp only [Nat.add_zero] at herr
      simp [submission_loop, herr, List.range_succ]
    | succ j' =>
      obtain ⟨o, ho⟩ := hok 0 (Nat.succ_pos j')
      simp only [Nat.add_zero] at ho
      have hj' : j' < rest.length := by
        simp only [List.length_cons] at hj
        omega
      have herr' : svc (c0 + 1 + j') = Except.error e := by
        rw [show c0 + 1 + j' = c0 + (j' + 1) by omega]; exact herr
      have hok' : ∀ i, i < j' → ∃ o, svc (c0 + 1 + i) = Except.ok o := by
        intro i hi
        rw [show c0 + 1 + i = c0 + (i + 1) by omega]
        exact hok (i + 1) (Nat.succ_lt_succ hi)
      have harg : (fun i => BatchOp.submitted (c0 + 1 + i)) =
          (fun i => BatchOp.submitted (c0 + (i + 1))) := by
        funext i; congr 1; omega
      simp only [submission_loop, ho]
      rw [ih j' e (c0 + 1) _ _ hj' herr' hok', harg,
        range_map_succ_shift (fun i => BatchOp.submitted (c0 + i))]
      simp

/-- A collection loop whose polls succeed on a prefix and then raise
aborts with that exception, its trace holding exactly the polls made up to
and including the failing one. -/
theorem collection_loop_err {ε : Type} (poll : String → Except ε String) :
    ∀ (pre : List (String × String)) (b : String × String) (post : List (String × String))
      (out : Option String) (prints : List (String × String)) (ops : List BatchOp) (e : ε),
      (∀ a ∈ pre, ∃ c, poll a.2 = Except.ok c) →
      poll b.2 = Except.error e →
      collection_loop poll (pre ++ b :: post) out prints ops =
        (Except.error e,
         ops ++ pre.map (fun a => BatchOp.polled a.2) ++ [BatchOp.polled b.2]) := by
  intro pre
  induction pre with
  | nil =>
    intro b post out prints ops e _ herr
    obtain ⟨binp, bloc⟩ := b
    simp only [] at herr
    simp [collection_loop, herr]
  | cons a pre ih =>
    intro b post out prints ops e hok herr
    obtain ⟨ainp, aloc⟩ := a
    obtain ⟨c, hc⟩ := hok (ainp, aloc) (List.mem_cons_self _ _)
    simp only [] at hc
    simp only [List.cons_append, collection_loop, hc]
    rw [List.append_eq, ih b post _ _ _ e (fun x hx => hok x (List.mem_cons_of_mem _ hx)) herr]
    simp

/-- Folding an overwrite over a nonempty list keeps only the last value. -/
theorem foldl_overwrite_last {α β : Type} (v : α → β) :
    ∀ (l : List α) (init : Option β) (h : l ≠ []),
      List.foldl (fun _ e => some (v e)) init l = some (v (l.getLast h)) := by
  intro l
  induction l with
  | nil => intro init h; exact absurd rfl h
  | cons a rest ih =>
    intro init h
    cases rest with
    | nil => simp [List.getLast]
    | cons b bs =>
      rw [List.foldl_cons, ih (some (v a)) (by simp)]
      congr 1

/-! ### Helper lemmas about dict building -/

/-- Inserting an existing key overwrites its value. -/
theorem dict_insert_single (k v0 v : String) : dict_insert [(k, v0)] k v = [(k, v)] := by
  simp [dict_insert]

/-- Folding dict insertion over pairs that share one key keeps a single
binding holding the last value. -/
theorem buildMap_const_from (k : String) :
    ∀ (vs : List String) (v0 : String),
      List.foldl (fun m e => dict_insert m e.1 e.2) [(k, v0)] (vs.map (fun v => (k, v))) =
        [(k, vs.getLastD v0)] := by
  intro vs
  induction vs with
  | nil => intro v0; simp
  | cons v vs ih =>
    intro v0
    simp only [List.map_cons, List.foldl_cons]
    rw [show dict_insert [(k, v0)] (k, v).1 (k, v).2 = [(k, v)] from dict_insert_single k v0 v,
      ih v, List.getLastD_cons]

/-- A record of pairs sharing one key builds into a one-binding mapping
holding the last value. -/
theorem buildMap_const_key (k : String) (vs : List String) (hne : vs ≠ []) :
    buildMap (vs.map (fun v => (k, v))) = [(k, vs.getLastD "")] := by
  cases vs with
  | nil => exact absurd rfl hne
  | cons v vs =>
    simp only [buildMap, List.map_cons, List.foldl_cons]
    rw [show dict_insert [] (k, v).1 (k, v).2 = [(k, v)] from by simp [dict_insert],
      buildMap_const_from k vs v, List.getLastD_cons]

/-- The last element of a mapped range. -/
theorem getLastD_range_map {α : Type} (g : Nat → α) (d : α) (m : Nat) :
    ((List.range (m + 1)).map g).getLastD d = g m := by
  rw [List.range_succ, List.map_append]
  simp

/-! ### Helper lemmas about URL parsing -/

/-- Scanning skips a character that does not open the `://` separator. -/
theorem dropScheme_skip (c : Char) (cs : List Char)
    (h : ¬(c = ':' ∧ cs.take 2 = ['/', '/'])) : dropScheme (c :: cs) = dropScheme cs := by
  simp [dropScheme, h]

/-- Scanning stops at `://` and returns what follows. -/
theorem dropScheme_hit (rest : List Char) :
    dropScheme (':' :: '/' :: '/' :: rest) = some rest := by
  simp [dropScheme]

/-- Stripping the scheme of an `s3://` URL. -/
theorem dropScheme_s3 (rest : List Char) :
    dropScheme ('s' :: '3' :: ':' :: '/' :: '/' :: rest) = some rest := by
  rw [dropScheme_skip 's' _ (fun h => absurd h.1 (by decide)),
    dropScheme_skip '3' _ (fun h => absurd h.1 (by decide)), dropScheme_hit]

/-- Splitting at the first slash, when the leading block has none. -/
theorem splitNetloc_no_slash :
    ∀ (l r : List Char), ('/' : Char) ∉ l →
      splitNetloc (l ++ '/' :: r) = (l, '/' :: r) := by
  intro l
  induction l with
  | nil => intro r _; simp [splitNetloc]
  | cons c cs ih =>
    intro r h
    have hc : ¬ c = '/' := by
      intro hc; exact h (by simp [hc])
    simp [splitNetloc, hc, ih r (fun hm => h (List.mem_cons_of_mem _ hm))]

/-- The character data of an `s3://bucket/key` location. -/
theorem s3_url_data (B P : String) :
    ("s3://" ++ B ++ "/" ++ P).data =
      's' :: '3' :: ':' :: '/' :: '/' :: (B.data ++ '/' :: P.data) := by
  have h1 : ("s3://" : String).data = ['s', '3', ':', '/', '/'] := rfl
  have h2 : ("/" : String).data = ['/'] := rfl
  simp [String.data_append, h1, h2]

/-- Parsing an `s3://bucket/key` location, when the bucket name has
no slash: the netloc is the bucket and the path starts with the slash. -/
theorem urlparse_np_s3 (B P : String) (hB : ('/' : Char) ∉ B.data) :
    urlparse_np ("s3://" ++ B ++ "/" ++ P) = (B.data, '/' :: P.data) := by
  unfold urlparse_np
  rw [s3_url_data, dropScheme_s3]
  exact splitNetloc_no_slash B.data P.data hB

/-- The bucket component resolved by `get_output`. -/
theorem s3_bucket_of_s3 (B P : String) (hB : ('/' : Char) ∉ B.data) :
    s3_bucket_of ("s3://" ++ B ++ "/" ++ P) = B := by
  unfold s3_bucket_of
  rw [urlparse_np_s3 B P hB]

/-- The key component resolved by `get_output`: the path with the single
leading slash removed. -/
theorem s3_key_of_s3 (B P : String) (hB : ('/' : Char) ∉ B.data) :
    s3_key_of ("s3://" ++ B ++ "/" ++ P) = P := by
  unfold s3_key_of
  rw [urlparse_np_s3 B P hB]
  rfl

/-- The loop returns at the very first attempt when that read succeeds. -/
theorem get_output_go_first_ok (bucket key : String) (env : Nat → ReadOutcome) (c : String)
    (h0 : env 0 = ReadOutcome.ok c) : ∀ fuel, 0 < fuel →
    (get_output_go bucket key env fuel).1 = GetOutputRes.returns c := by
  intro fuel hfuel
  match fuel, hfuel with
  | fuel + 1, _ => simp [get_output_go, h0]

/-! ### Claims -/

/-- C1: the Result Poller retries the read if and only if the read fails
with a `ClientError` whose code is `NoSuchKey`, sleeping a fixed interval
of 2 time units before each retry; every other failure raised by the read
is propagated to the caller immediately, without any retry and without
sleeping.  Formally: when the first `n` attempts fail with the not-found
condition, the loop retries after each of them; a success at attempt `n`
returns at once, and any other `ClientError` or any other failure at
attempt `n` is re-raised at once — in each case the trace is `n + 1` reads
whose sleeps all last 2 and number exactly `n`, one before each retry and
none after the final read. -/
theorem c1_retry_iff_not_found (bucket key : String) (env : Nat → ReadOutcome) (n : Nat)
    (hpre : ∀ j, j < n → env j = ReadOutcome.clientError "NoSuchKey") :
    (∀ c, env n = ReadOutcome.ok c → ∀ fuel, n < fuel →
      get_output_go bucket key env fuel = (GetOutputRes.returns c, pollTrace bucket key n))
    ∧ (∀ code, env n = ReadOutcome.clientError code → code ≠ "NoSuchKey" → ∀ fuel, n < fuel →
      get_output_go bucket key env fuel =
        (GetOutputRes.raisesClientError code, pollTrace bucket key n))
    ∧ (∀ msg, env n = ReadOutcome.otherError msg → ∀ fuel, n < fuel →
      get_output_go bucket key env fuel = (GetOutputRes.raisesOther msg, pollTrace bucket key n))
    ∧ (∀ d, StoreAction.sleepA d ∈ pollTrace bucket key n → d = 2)
    ∧ countSleeps (pollTrace bucket key n) = n := by
  refine ⟨?_, ?_, ?_, pollTrace_sleeps bucket key n, pollTrace_countSleeps bucket key n⟩
  · intro c hc fuel hfuel
    have h := get_output_go_terminates bucket key n env hpre
      (by rw [hc]; exact fun hh => ReadOutcome.noConfusion hh) fuel hfuel
    rw [hc] at h
    exact h
  · intro code hc hne fuel hfuel
    have h := get_output_go_terminates bucket key n env hpre
      (by rw [hc]; exact fun hh => hne (ReadOutcome.clientError.inj hh)) fuel hfuel
    rw [hc] at h
    exact h
  · intro msg hc fuel hfuel
    have h := get_output_go_terminates bucket key n env hpre
      (by rw [hc]; exact fun hh => ReadOutcome.noConfusion hh) fuel hfuel
    rw [hc] at h
    exact h

/-- Read outcomes for the C1 witness: one not-found failure, then an
unrelated client error. -/
def envW1 : Nat → ReadOutcome := fun n =>
  if n = 0 then ReadOutcome.clientError "NoSuchKey" else ReadOutcome.clientError "AccessDenied"

/-- Witness for C1 at a concrete environment: one retry after the
not-found failure, then immediate propagation of the other failure. -/
theorem c1_retry_iff_not_found_witness :
    get_output_go "b" "k" envW1 3 =
      (GetOutputRes.raisesClientError "AccessDenied", pollTrace "b" "k" 1) := by
  have h := c1_retry_iff_not_found "b" "k" envW1 1
    (by intro j hj; interval_cases j; rfl)
  exact h.2.1 "AccessDenied" rfl (by decide) 3 (by omega)

/-- C2: the poller returns the content of the referenced object as soon as
a read attempt finds it present — after `n` not-found attempts and a
success it returns that content at that attempt — and when every read
attempt fails with the not-found condition the poller never returns: for
every fuel bound the loop is still running, so no amount of fuel suffices;
there is no timeout and no maximum retry count. -/
theorem c2_returns_when_present_else_unbounded (bucket key : String) (env : Nat → ReadOutcome) :
    (∀ n c, (∀ j, j < n → env j = ReadOutcome.clientError "NoSuchKey") →
      env n = ReadOutcome.ok c → ∀ fuel, n < fuel →
        get_output_go bucket key env fuel = (GetOutputRes.returns c, pollTrace bucket key n))
    ∧ ((∀ j, env j = ReadOutcome.clientError "NoSuchKey") →
      ∀ fuel, (get_output_go bucket key env fuel).1 = GetOutputRes.outOfFuel) := by
  constructor
  · intro n c hpre hc fuel hfuel
    have h := get_output_go_terminates bucket key n env hpre
      (by rw [hc]; exact fun hh => ReadOutcome.noConfusion hh) fuel hfuel
    rw [hc] at h
    exact h
  · intro h fuel
    exact get_output_go_all_nosuchkey bucket key fuel env h

/-- Read outcomes for the C2 and C7 witnesses: two not-found failures, then
the object is present. -/
def envW2 : Nat → ReadOutcome := fun n =>
  if n = 2 then ReadOutcome.ok "body" else ReadOutcome.clientError "NoSuchKey"

/-- Witness for C2 at concrete environments: return at the first successful
attempt, and fuel exhaustion at a bound of 100 when the object never
appears. -/
theorem c2_returns_when_present_else_unbounded_witness :
    get_output_go "b" "k" envW2 5 = (GetOutputRes.returns "body", pollTrace "b" "k" 2)
    ∧ (get_output_go "b" "k" (fun _ => ReadOutcome.clientError "NoSuchKey") 100).1 =
      GetOutputRes.outOfFuel := by
  constructor
  · exact (c2_returns_when_present_else_unbounded "b" "k" envW2).1 2 "body"
      (by intro j hj; interval_cases j <;> rfl) rfl 5 (by omega)
  · exact (c2_returns_when_present_else_unbounded "b" "k"
      (fun _ => ReadOutcome.clientError "NoSuchKey")).2 (fun _ => rfl) 100

/-- C7: polling is read-only and idempotent before readiness: every action
in a poll run's trace is a read of the polled object or a sleep — never a
write to storage, and nothing is cached — and when the object becomes
visible with content `c` after `n` not-found attempts, the poller returns
exactly `c` whatever `n` was, so polls made before visibility leave storage
unchanged and do not alter the content eventually returned. -/
theorem c7_read_only_idempotent (bucket key : String) (env : Nat → ReadOutcome) (fuel : Nat) :
    (∀ b2 k2 c2, StoreAction.write b2 k2 c2 ∉ (get_output_go bucket key env fuel).2)
    ∧ (∀ n c, (∀ j, j < n → env j = ReadOutcome.clientError "NoSuchKey") →
      env n = ReadOutcome.ok c → n < fuel →
        (get_output_go bucket key env fuel).1 = GetOutputRes.returns c) := by
  constructor
  · intro b2 k2 c2 hmem
    rcases get_output_go_actions bucket key fuel env _ hmem with h | h <;>
      exact StoreAction.noConfusion h
  · intro n c hpre hc hfuel
    have h := get_output_go_terminates bucket key n env hpre
      (by rw [hc]; exact fun hh => ReadOutcome.noConfusion hh) fuel hfuel
    rw [h, hc]
    rfl

/-- Witness for C7 at a concrete environment: the trace of a run with two
pre-readiness polls has no write, and the returned content is the object's
content. -/
theorem c7_read_only_idempotent_witness :
    (∀ b2 k2 c2, StoreAction.write b2 k2 c2 ∉ (get_output_go "b" "k" envW2 5).2)
    ∧ (get_output_go "b" "k" envW2 5).1 = GetOutputRes.returns "body" := by
  obtain ⟨h1, h2⟩ := c7_read_only_idempotent "b" "k" envW2 5
  exact ⟨h1, h2 2 "body" (by intro j hj; interval_cases j <;> rfl) rfl (by omega)⟩

/-- C9: an output_location of the form `s3://B/P` is resolved by reading
the storage object in bucket `B` at key `P`: `get_output` takes the bucket
from the URL's netloc and the key from its path with exactly the single
leading slash removed, and when that object holds content `c` it returns
`c`. -/
theorem c9_location_resolution (B P : String) (st : Storage) (hB : ('/' : Char) ∉ B.data) :
    s3_bucket_of ("s3://" ++ B ++ "/" ++ P) = B
    ∧ s3_key_of ("s3://" ++ B ++ "/" ++ P) = P
    ∧ (∀ c, st B P = some c → ∀ fuel, 0 < fuel →
      (get_output (fun _ => st) ("s3://" ++ B ++ "/" ++ P) fuel).1 = GetOutputRes.returns c) := by
  refine ⟨s3_bucket_of_s3 B P hB, s3_key_of_s3 B P hB, ?_⟩
  intro c hc fuel hfuel
  unfold get_output
  simp only [s3_bucket_of_s3 B P hB, s3_key_of_s3 B P hB]
  exact get_output_go_first_ok B P _ c (by simp [read_s3_file, hc]) fuel hfuel

/-- Storage for the C9 witness: one object. -/
def stW : Storage := fun b k =>
  if b = "mybucket" ∧ k = "demo/output/x.out" then some "hello" else none

/-- Witness for C9 at a concrete location and storage. -/
theorem c9_location_resolution_witness :
    s3_bucket_of ("s3://" ++ "mybucket" ++ "/" ++ "demo/output/x.out") = "mybucket"
    ∧ s3_key_of ("s3://" ++ "mybucket" ++ "/" ++ "demo/output/x.out") = "demo/output/x.out"
    ∧ (get_output (fun _ => stW) ("s3://" ++ "mybucket" ++ "/" ++ "demo/output/x.out") 1).1 =
      GetOutputRes.returns "hello" := by
  have h := c9_location_resolution "mybucket" "demo/output/x.out" stW (by decide)
  exact ⟨h.1, h.2.1, h.2.2 "hello" rfl 1 (by omega)⟩

/-- C4: the Batch Coordinator appends one (input_reference,
output_reference) entry per successful submission in exactly submission
order, and the collection phase then polls those entries in that same
order, for every behaviour of the external service: whatever output
locations `f` the service returns and whatever contents `g` later appear
(completion order and contents are unconstrained), the recorded
`inferences` list is the submission-ordered sequence of pairs and the
operation trace is the submissions in call order followed by the polls of
exactly those output locations in the same order. -/
theorem c4_submission_order_preserved (ε : Type) (f : Nat → String) (g : String → String)
    (input_loc : String) (idxs : List Nat) :
    batch_run (ε := ε) (fun i => Except.ok (f i)) (fun loc => Except.ok (g loc)) input_loc idxs =
      (Except.ok ((List.range idxs.length).map (fun i => (input_loc, f i)),
        ((List.range idxs.length).map (fun i => (input_loc, f i))).foldl
          (fun _ e => some (g e.2)) none,
        (List.range idxs.length).map (fun i => (input_loc, f i))),
       (List.range idxs.length).map (fun i => BatchOp.submitted i)
         ++ (List.range idxs.length).map (fun i => BatchOp.polled (f i))) := by
  simp only [batch_run, submission_loop_ok, List.nil_append, Nat.zero_add,
    collection_loop_ok]
  simp [List.map_map, Function.comp]

/-- C5: any unrecovered error during submission or polling is fatal to the
batch: the run terminates with exactly that error and no partial result set
is returned (the outcome is the error, not a partial record).  In
particular, a failure on the j-th submission means the run ends after that
call with no poll performed for any already-submitted entry; and when all
submissions succeed but the poll of the k-th recorded entry raises, the
run likewise ends with that error. -/
theorem c5_failure_aborts_batch (ε : Type) (svc : Nat → Except ε String)
    (poll : String → Except ε String) (input_loc : String) (idxs : List Nat) :
    (∀ j e, j < idxs.length → svc j = Except.error e →
      (∀ i, i < j → ∃ o, svc i = Except.ok o) →
      (batch_run svc poll input_loc idxs).1 = Except.error e
      ∧ ∀ loc, BatchOp.polled loc ∉ (batch_run svc poll input_loc idxs).2)
    ∧ (∀ (f : Nat → String) (k : Nat) (e : ε), (∀ i, svc i = Except.ok (f i)) → k < idxs.length →
      poll (f k) = Except.error e → (∀ i, i < k → ∃ c, poll (f i) = Except.ok c) →
      (batch_run svc poll input_loc idxs).1 = Except.error e) := by
  constructor
  · intro j e hj herr hok
    have hsub := submission_loop_err svc input_loc idxs j e 0 [] [] hj
      (by simpa using herr) (by intro i hi; simpa using hok i hi)
    constructor
    · simp [batch_run, hsub]
    · intro loc
      simp [batch_run, hsub]
  · intro f k e hsvc hk hpoll hpolls
    have hsvc' : svc = fun i => Except.ok (f i) := funext hsvc
    subst hsvc'
    have hsplit : (List.range idxs.length).map (fun i => (input_loc, f i)) =
        (List.range k).map (fun i => (input_loc, f i)) ++ (input_loc, f k) ::
          ((List.range (idxs.length - (k + 1))).map (fun x => k + 1 + x)).map
            (fun i => (input_loc, f i)) := by
      conv_lhs => rw [show idxs.length = k + 1 + (idxs.length - (k + 1)) from by omega]
      rw [List.range_add, List.range_succ]
      simp
    have hpre : ∀ a ∈ (List.range k).map (fun i => (input_loc, f i)),
        ∃ c, poll a.2 = Except.ok c := by
      intro a ha
      simp only [List.mem_map, List.mem_range] at ha
      obtain ⟨i, hi, rfl⟩ := ha
      exact hpolls i hi
    have hcoll := collection_loop_err poll
      ((List.range k).map (fun i => (input_loc, f i))) (input_loc, f k)
      (((List.range (idxs.length - (k + 1))).map (fun x => k + 1 + x)).map
        (fun i => (input_loc, f i)))
      none [] ((List.range idxs.length).map (fun j => BatchOp.submitted j)) e hpre
      (by simpa using hpoll)
    simp only [batch_run, submission_loop_ok, List.nil_append, Nat.zero_add, hsplit, hcoll]

/-- Submission responses for the C5 witness: the second call raises. -/
def svcW : Nat → Except String String := fun i =>
  if i = 0 then Except.ok "o0" else Except.error "ThrottlingException"

/-- Poll results for the C5 witness: every poll raises. -/
def pollErrW : String → Except String String := fun _ =>
  Except.error "AccessDenied"

/-- Witness for C5 at concrete runs: a batch whose second submission
raises ends with that error and polls nothing, and a batch whose first
poll raises ends with that error. -/
theorem c5_failure_aborts_batch_witness :
    (batch_run svcW (fun _ => Except.ok "c") "in" [1, 2, 3]).1 =
      Except.error "ThrottlingException"
    ∧ (∀ loc, BatchOp.polled loc ∉ (batch_run svcW (fun _ => Except.ok "c") "in" [1, 2, 3]).2)
    ∧ (batch_run (fun _ => (Except.ok "out" : Except String String)) pollErrW "in" [1, 2, 3]).1 =
      Except.error "AccessDenied" := by
  have h1 := (c5_failure_aborts_batch String svcW (fun _ => Except.ok "c") "in" [1, 2, 3]).1
    1 "ThrottlingException" (by decide) rfl
    (by intro i hi; interval_cases i; exact ⟨"o0", rfl⟩)
  have h2 := (c5_failure_aborts_batch String (fun _ => Except.ok "out") pollErrW "in" [1, 2, 3]).2
    (fun _ => "out") 0 "AccessDenied" (fun _ => rfl) (by decide) rfl
    (fun i hi => absurd hi (Nat.not_lt_zero i))
  exact ⟨h1.1, h1.2, h2⟩

/-- C3 (code bug): the "Trigger 10 asynchronous requests" cell iterates
`range(1, 10)`, which has 9 elements, so with every call succeeding the
cell performs 9 submissions, records and polls 9 output references — not
the 10 that its own heading and the specification describe. -/
theorem c3_nine_not_ten :
    (pyrange 1 10).length = 9
    ∧ numSubmissions (batch_run (fun _ => (Except.ok "out" : Except String String))
        (fun _ => Except.ok "c") "in" (pyrange 1 10)).2 = 9
    ∧ numPolls (batch_run (fun _ => (Except.ok "out" : Except String String))
        (fun _ => Except.ok "c") "in" (pyrange 1 10)).2 = 9
    ∧ (9 : Nat) ≠ 10 := by
  refine ⟨rfl, rfl, rfl, by omega⟩

/-- Poll results for the C6 counterexample: two ready objects. -/
def pollW : String → Except String String := fun loc =>
  if loc = "o0" then Except.ok "c0"
  else if loc = "o1" then Except.ok "c1"
  else Except.error "NoSuchKey"

/-- C6 counterexample: running the collection loop over two recorded pairs
with distinct input references retrieves contents "c0" then "c1", yet what
the caller holds afterwards is only the final `output` value "c1" and the
printed (input file, output location) pairs: the content "c0" — which the
specified result mapping, built by `spec_collection`, records under key
"a" — appears nowhere in the loop's result, so no result mapping keyed by
input_reference is built and the caller does not hold each retrieved
content. -/
theorem c6_counterexample_no_mapping :
    collection_loop pollW [("a", "o0"), ("b", "o1")] none [] [] =
      (Except.ok (some "c1", [("a", "o0"), ("b", "o1")]),
       [BatchOp.polled "o0", BatchOp.polled "o1"])
    ∧ spec_collection pollW [("a", "o0"), ("b", "o1")] =
      Except.ok [("a", "c0"), ("b", "c1")]
    ∧ pollW "o0" = Except.ok "c0"
    ∧ some "c1" ≠ some "c0"
    ∧ ∀ pr ∈ [("a", "o0"), ("b", "o1")], pr.1 ≠ "c0" ∧ pr.2 ≠ "c0" := by
  refine ⟨rfl, rfl, rfl, by decide, by decide⟩

/-- C6 amended: for each recorded pair, in order, the collection phase does
invoke the Result Poller, but it records no mapping keyed by
input_reference: each content is bound to the single variable `output`,
overwritten at the next iteration, and only the (input file, output
location) pairs are printed, so after the batch the caller holds exactly
the last entry's content together with those pairs. -/
theorem c6_amended_last_content_only (ε : Type) (g : String → String)
    (entries : List (String × String)) :
    collection_loop (ε := ε) (fun loc => Except.ok (g loc)) entries none [] [] =
      (Except.ok (entries.foldl (fun _ e => some (g e.2)) none, entries),
       entries.map (fun e => BatchOp.polled e.2))
    ∧ ∀ h : entries ≠ [],
      entries.foldl (fun _ e => some (g e.2)) none = some (g (entries.getLast h).2) := by
  constructor
  · rw [collection_loop_ok]
    simp
  · intro h
    exact foldl_overwrite_last (fun e => g e.2) entries none h

/-- Witness for the amended C6 at a concrete record: the caller is left
with the content of the last entry. -/
theorem c6_amended_last_content_only_witness :
    ([("a", "o0"), ("b", "o1")] : List (String × String)).foldl
      (fun _ e => some ((fun loc => loc) e.2)) none = some "o1" :=
  (c6_amended_last_content_only String (fun loc => loc) [("a", "o0"), ("b", "o1")]).2
    (by decide)

/-- C8: for every bucket, prefix and service-chosen token, the
output_reference returned for a submission — an object under the
configured `S3OutputPath`, which ends in `/output` — differs from the
submitted input_reference, which lives under `.../input/input.json`: the
returned output locator never equals the submitted input locator. -/
theorem c8_output_distinct_from_input (s3_bucket : String) ( bucket_prefix : String)
    (token : String) :
    submit_output_reference s3_bucket bucket_prefix token ≠
      input_s3_location s3_bucket bucket_prefix := by
  intro h
  have hd := congrArg String.data h
  simp only [submit_output_reference, s3_output_path, input_s3_location,
    String.data_append, List.append_assoc] at hd
  have h1 := List.append_cancel_left hd
  have h2 := List.append_cancel_left h1
  have h3 := List.append_cancel_left h2
  have h4 := List.append_cancel_left h3
  simp only [List.cons_append] at h4
  injection h4 with ha hb
  injection hb with hc hd2
  exact absurd hc (by decide)

/-- C10: in both batch runs every entry appended to the coordinator's
record has the same first component — the single shared input location —
so a result mapping keyed by input_reference built from that record
contains exactly one key, with later entries overwriting earlier ones: it
is the one-binding mapping from the shared input location to the last
recorded output. -/
theorem c10_shared_input_single_key (ε : Type) (f : Nat → String) (input_loc : String)
    (idxs : List Nat) (hne : idxs ≠ []) :
    (submission_loop (ε := ε) (fun i => Except.ok (f i)) input_loc idxs 0 [] []).1 =
      Except.ok ((List.range idxs.length).map (fun i => (input_loc, f i)))
    ∧ (∀ en ∈ (List.range idxs.length).map (fun i => (input_loc, f i)), en.1 = input_loc)
    ∧ buildMap ((List.range idxs.length).map (fun i => (input_loc, f i))) =
      [(input_loc, f (idxs.length - 1))] := by
  refine ⟨?_, ?_, ?_⟩
  · rw [submission_loop_ok]
    simp
  · intro en hen
    simp only [List.mem_map] at hen
    obtain ⟨i, _, rfl⟩ := hen
    rfl
  · obtain ⟨m, hm⟩ : ∃ m, idxs.length = m + 1 := by
      cases idxs with
      | nil => exact absurd rfl hne
      | cons a l => exact ⟨l.length, rfl⟩
    rw [hm]
    rw [show (List.range (m + 1)).map (fun i => (input_loc, f i)) =
        ((List.range (m + 1)).map f).map (fun v => (input_loc, v)) from by
      simp [List.map_map]]
    rw [buildMap_const_key input_loc _ (by simp), getLastD_range_map]
    simp

/-- Witness for C10 at the 10-request demo run's record shape. -/
theorem c10_shared_input_single_key_witness :
    buildMap ((List.range (pyrange 1 10).length).map (fun i => ("in", Nat.repr i))) =
      [("in", Nat.repr ((pyrange 1 10).length - 1))] :=
  (c10_shared_input_single_key String Nat.repr "in" (pyrange 1 10) (by decide)).2.2

/-- Witness for C8 at concrete values: the returned output locator differs
from the submitted input locator. -/
theorem c8_output_distinct_from_input_witness :
    submit_output_reference "bkt" "async-inference-demo" "token123" ≠
      input_s3_location "bkt" "async-inference-demo" :=
  c8_output_distinct_from_input "bkt" "async-inference-demo" "token123"
